import Mathlib

/-!
# Verification of centauri's route/certificate manager and config parser

Shallow embedding of the route/certificate manager (`proxy.Manager`), the
config parser (`config.Parse`) and the certificate-provider configuration
(`cmd/centauri/certs.go`) of the centauri reverse proxy, with proofs of the
specified properties.

The `proxy` and `config` implementation files are not part of the studied
sources (only their tests and their callers are), so the manager and the
parser are modelled from the specification (§4.1, §4.5 of the spec),
constrained by the behaviour their tests pin down.
-/

namespace Centauri

/-- Modelled from the spec: the header operation kinds of a HeaderRule
(§3: `operation ∈ {Add, Delete, Default, Replace}`), corresponding to the
Go constants `proxy.HeaderOpAdd` etc. (the `proxy` package source is not in
the studied sources). -/
inductive HeaderOp where
  | add
  | delete
  | dflt
  | replace
deriving DecidableEq, Repr

/-- Modelled from the spec: a HeaderRule record (§3): an operation, a header
name and a value; `Delete` omits the value (modelled as `""`). -/
structure HeaderRule where
  operation : HeaderOp
  name : String
  value : String
deriving DecidableEq, Repr

/-- An opaque certificate handle, as handed out by a certificate supplier
(the spec treats certificates as opaque handles attached to routes). -/
abbrev Cert := Nat

/-- Modelled from the spec: the Route record (§3): an ordered list of
domains (first element is the primary subject), an upstream, an optional
provider name (`""` means default), ordered header rules, and a lazily
attached certificate (absent when no provider is configured). -/
structure Route where
  domains : List String
  upstream : String
  provider : String
  headers : List HeaderRule
  certificate : Option Cert := none
deriving DecidableEq, Repr

/-- Modelled from the spec: the error kinds of §7 (`ParseError`,
`InvalidDomain`, `DuplicateDomain`, `SupplierError`, `NoCertificate`). -/
inductive Err where
  | parseError (msg : String)
  | invalidDomain (d : String)
  | duplicateDomain (d : String)
  | supplierError (msg : String)
  | noCertificate
deriving DecidableEq, Repr

/-- Modelled from the spec: the certificate supplier capability (§4.2):
`GetCertificate(preferredSupplier, subject, altNames)` returns a
certificate or an error. Modelled as a pure function, which also makes it
memoising (identical inputs give identical results), matching §4.2's
expectation. -/
def Supplier := String → String → List String → Except String Cert

/-- Split a character list at every occurrence of `sep`; adjacent
separators yield empty pieces (the behaviour of Go's `strings.Split`).
`acc` is the current piece, reversed. -/
def splitOnCharAux (sep : Char) : List Char → List Char → List (List Char)
  | [], acc => [acc.reverse]
  | c :: cs, acc =>
    if c = sep then acc.reverse :: splitOnCharAux sep cs []
    else splitOnCharAux sep cs (c :: acc)

/-- Split a character list at every occurrence of `sep`. -/
def splitOnChar (sep : Char) (cs : List Char) : List (List Char) :=
  splitOnCharAux sep cs []

/-- Lowercase a string character by character. -/
def strLower (s : String) : String := ⟨s.data.map Char.toLower⟩

/-- A single DNS label is 1–63 characters, alphanumerics and hyphens only,
with no leading or trailing hyphen (spec §3). -/
def validLabel (cs : List Char) : Bool :=
  decide (1 ≤ cs.length) && decide (cs.length ≤ 63) &&
  cs.all (fun c => c.isAlphanum || c = '-') &&
  !(cs.head? == some '-') && !(cs.getLast? == some '-')

/-- A domain is syntactically valid when it is at most 253 characters and
every dot-separated label is valid; an empty label (as in `example..com`)
is rejected (spec §3). -/
def validDomain (s : String) : Bool :=
  decide (s.data.length ≤ 253) && (splitOnChar '.' s.data).all validLabel

/-- Lowercase every domain of a route (spec §4.5 step 1: SetRoutes
lowercases each domain before validation). -/
def lowerRoute (r : Route) : Route :=
  { r with domains := r.domains.map strLower }

/-- The first syntactically invalid domain across a route list, if any. -/
def firstInvalidDomain (rs : List Route) : Option String :=
  (rs.flatMap (fun r => r.domains)).find? (fun d => !validDomain d)

/-- The first domain that occurs twice in a list, if any (spec §4.5 step 2:
a domain already present in the table under construction is a duplicate). -/
def firstDup : List String → Option String
  | [] => none
  | d :: rest => if rest.contains d then some d else firstDup rest

/-- Modelled from the spec: certificate acquisition of SetRoutes step 3 and
of CheckCertificates (§4.5): for each route invoke
`GetCertificate(route.provider, domains[0], domains[1..])` and attach the
result; any supplier error aborts the whole pass. -/
def fetchCerts (f : Supplier) : List Route → Except String (List Route)
  | [] => .ok []
  | r :: rs =>
    match r.domains with
    | [] => .error "route has no domains"
    | d :: ds =>
      match f r.provider d ds with
      | .error e => .error e
      | .ok c =>
        match fetchCerts f rs with
        | .error e => .error e
        | .ok rest => .ok ({ r with certificate := some c } :: rest)

/-- Modelled from the spec: the route/proxy manager's state (§4.5): a
certificate supplier (absent when the manager was constructed with no
provider, as in `NewManager(nil)` in the tests) and the installed route
list; the domain→route table is derived from the route list. -/
structure Manager where
  provider : Option Supplier
  routes : List Route

/-- Modelled from the spec: `NewManager` — a fresh manager with the given
(possibly absent) certificate supplier and an empty route table. -/
def newManager (p : Option Supplier) : Manager :=
  { provider := p, routes := [] }

/-- Modelled from the spec: the pure core of SetRoutes (§4.5): lowercase
and validate all domains, reject duplicates, then (when a provider is
configured) acquire a certificate for every route; returns the candidate
route list or the first error. -/
def installRoutes (p : Option Supplier) (newRoutes : List Route) :
    Except Err (List Route) :=
  let rs := newRoutes.map lowerRoute
  match firstInvalidDomain rs with
  | some d => .error (.invalidDomain d)
  | none =>
    match firstDup (rs.flatMap (fun r => r.domains)) with
    | some d => .error (.duplicateDomain d)
    | none =>
      match p with
      | none => .ok rs
      | some f =>
        match fetchCerts f rs with
        | .error e => .error (.supplierError e)
        | .ok rs' => .ok rs'

/-- Modelled from the spec: `SetRoutes` (§4.5) — install a new route table
atomically; on success the new table replaces the old one wholesale. -/
def setRoutes (m : Manager) (newRoutes : List Route) : Except Err Manager :=
  match installRoutes m.provider newRoutes with
  | .error e => .error e
  | .ok rs => .ok { m with routes := rs }

/-- `SetRoutes` as a state transition: on error the manager is left
unchanged and the error is reported alongside (spec §7: any error leaves
the previous table intact). -/
def setRoutesState (m : Manager) (newRoutes : List Route) :
    Manager × Option Err :=
  match setRoutes m newRoutes with
  | .error e => (m, some e)
  | .ok m' => (m', none)

/-- Modelled from the spec: `RouteForDomain` (§4.5) — case-insensitive
exact-match lookup of the route table (installed domains are stored
lowercased; the query is lowercased), no wildcard expansion. -/
def routeForDomain (m : Manager) (d : String) : Option Route :=
  m.routes.find? (fun r => r.domains.contains (strLower d))

/-- The part of a TLS ClientHello the manager consults: the SNI server
name. -/
structure ClientHelloInfo where
  serverName : String
deriving DecidableEq, Repr

/-- Modelled from the spec: `CertificateForClient` (§4.5) — look up the
route by SNI; no route means `(null, nil)`; a route without an attached
certificate is a `NoCertificate` error; otherwise the attached certificate
is returned. -/
def certificateForClient (m : Manager) (h : ClientHelloInfo) :
    Except Err (Option Cert) :=
  match routeForDomain m h.serverName with
  | none => .ok none
  | some r =>
    match r.certificate with
    | none => .error .noCertificate
    | some c => .ok (some c)

/-- Modelled from the spec: `CheckCertificates` (§4.5) — with no provider
configured the pass does nothing and succeeds; otherwise re-invoke the
supplier for every installed route and replace its certificate, failing
the whole pass on any supplier error (the table is then unchanged). -/
def checkCertificates (m : Manager) : Manager × Option Err :=
  match m.provider with
  | none => (m, none)
  | some f =>
    match fetchCerts f m.routes with
    | .error e => (m, some (.supplierError e))
    | .ok rs => ({ m with routes := rs }, none)

/-! ## Config parser -/

/-- Whitespace characters of the config grammar: a space or a tab. -/
def isWS (c : Char) : Bool := c = ' ' || c = '\t'

/-- Collect the whitespace-separated tokens of a line; `acc` is the token
under construction, reversed. -/
def tokenizeAux : List Char → List Char → List String
  | [], acc => if acc.isEmpty then [] else [⟨acc.reverse⟩]
  | c :: cs, acc =>
    if isWS c then
      if acc.isEmpty then tokenizeAux cs []
      else (⟨acc.reverse⟩ : String) :: tokenizeAux cs []
    else tokenizeAux cs (c :: acc)

/-- Split a config line into whitespace-separated tokens. -/
def tokenize (line : List Char) : List String :=
  tokenizeAux line []

/-- An empty route record freshly opened by a `route` directive: the given
domains, no upstream, no provider, no headers, no certificate (spec §4.1;
a route with no `provider` directive keeps provider `""`). -/
def emptyRoute (ds : List String) : Route :=
  { domains := ds, upstream := "", provider := "", headers := [],
    certificate := none }

/-- Modelled from the spec: handling of one in-route directive of the
grammar (§4.1): `upstream host`, `provider name`, or `header hop`, with the
keyword already lowercased; `upstream` and `provider` may be given at most
once per route; `add`/`replace`/`default` header operations need a name and
a value, `delete` only a name; anything else is a parse error. The
`config` package source is not in the studied sources. -/
def applyDirective (r : Route) (kw : String) (args : List String) :
    Except Err Route :=
  if kw = "upstream" then
    match args with
    | [u] =>
      if r.upstream ≠ "" then .error (.parseError "duplicate upstream")
      else .ok { r with upstream := u }
    | _ => .error (.parseError "upstream needs exactly one argument")
  else if kw = "provider" then
    match args with
    | [p] =>
      if r.provider ≠ "" then .error (.parseError "duplicate provider")
      else .ok { r with provider := p }
    | _ => .error (.parseError "provider needs exactly one argument")
  else if kw = "header" then
    match args with
    | op :: rest =>
      let opl := strLower op
      if opl = "delete" then
        match rest with
        | [n] =>
          .ok { r with headers :=
                  r.headers ++ [⟨HeaderOp.delete, n, ""⟩] }
        | _ => .error (.parseError "header delete needs exactly a name")
      else if opl = "add" then
        match rest with
        | [n, v] =>
          .ok { r with headers := r.headers ++ [⟨HeaderOp.add, n, v⟩] }
        | _ => .error (.parseError "header add needs a name and a value")
      else if opl = "replace" then
        match rest with
        | [n, v] =>
          .ok { r with headers := r.headers ++ [⟨HeaderOp.replace, n, v⟩] }
        | _ =>
          .error (.parseError "header replace needs a name and a value")
      else if opl = "default" then
        match rest with
        | [n, v] =>
          .ok { r with headers := r.headers ++ [⟨HeaderOp.dflt, n, v⟩] }
        | _ =>
          .error (.parseError "header default needs a name and a value")
      else .error (.parseError "unknown header operation")
    | [] => .error (.parseError "header needs an operation")
  else .error (.parseError "unknown keyword")

/-- Modelled from the spec: the single-pass parser state machine (§4.1):
the states are TopLevel (`cur = none`) and InRoute (`cur = some r`); blank
lines and `#` comments are skipped without changing state; a `route` line
commits the open route and opens a new one; any other directive requires an
open route. `acc` holds the committed routes in input order. -/
def parseLines : List (List Char) → Option Route → List Route →
    Except Err (List Route)
  | [], cur, acc => .ok (acc ++ cur.toList)
  | line :: rest, cur, acc =>
    match tokenize line with
    | [] => parseLines rest cur acc
    | tok :: args =>
      if tok.data.head? == some '#' then parseLines rest cur acc
      else
        let kw := strLower tok
        if kw = "route" then
          match args with
          | [] => .error (.parseError "route needs at least one domain")
          | _ => parseLines rest (some (emptyRoute args)) (acc ++ cur.toList)
        else
          match cur with
          | none => .error (.parseError "directive outside route")
          | some r =>
            match applyDirective r kw args with
            | .error e => .error e
            | .ok r' => parseLines rest (some r') acc

/-- Modelled from the spec: `config.Parse` (§4.1) — parse a whole config
text, line by line, into an order-preserving route list or the first
parse error. -/
def Parse (input : String) : Except Err (List Route) :=
  parseLines (splitOnChar '\n' input.data) none []

/-- `true` when `Parse` rejects the given input. -/
def parseFails (input : String) : Bool :=
  match Parse input with
  | .error _ => true
  | .ok _ => false

/-! ## Certificate provider configuration (cmd/centauri/certs.go) -/

/-- One nanosecond: the unit of Go's `time.Duration`. -/
def timeNanosecond : Nat := 1

/-- Go's `time.Second` in nanoseconds. -/
def timeSecond : Nat := 1000000000 * timeNanosecond

/-- Go's `time.Hour` in nanoseconds. -/
def timeHour : Nat := 3600 * timeSecond

/-- `acmeMinCertValidity = time.Hour * 24 * 30` (certs.go). -/
def acmeMinCertValidity : Nat := timeHour * 24 * 30

/-- `acmeMinOcspValidity = time.Hour * 24` (certs.go). -/
def acmeMinOcspValidity : Nat := timeHour * 24

/-- `selfSignedMinCertValidity = time.Hour * 24 * 7` (certs.go). -/
def selfSignedMinCertValidity : Nat := timeHour * 24 * 7

/-- `selfSignedOcspValidity = time.Second` (certs.go). -/
def selfSignedOcspValidity : Nat := timeSecond

/-- The validity thresholds a `certificate.NewManager` is constructed
with: a minimum remaining certificate validity and a minimum remaining
OCSP staple validity (both in nanoseconds). -/
structure CertManagerConfig where
  minCertValidity : Nat
  minOcspValidity : Nat
deriving DecidableEq, Repr

/-- The provider map built by `certProviders` (certs.go), reduced to the
thresholds each named certificate manager is constructed with: `"lego"`
wraps a manager built with the ACME thresholds, `"selfsigned"` one built
with the self-signed thresholds. -/
def certProviderConfigs : List (String × CertManagerConfig) :=
  [("lego", ⟨acmeMinCertValidity, acmeMinOcspValidity⟩),
   ("selfsigned", ⟨selfSignedMinCertValidity, selfSignedOcspValidity⟩)]

/-! ## Concrete fixtures used by the witnesses -/

/-- A supplier that always hands out the same certificate handle,
mirroring the tests' `fakeCertManager` with a fixed certificate. -/
def constSupplier : Supplier := fun _ _ _ => .ok 7

/-- The three-domain route used throughout the manager tests. -/
def demoRoute : Route :=
  { domains := ["test.deep.example.com", "test.example.com", "example.com"],
    upstream := "localhost:8080", provider := "", headers := [],
    certificate := none }

/-- `demoRoute` with the certificate `constSupplier` hands out. -/
def demoRouteCert : Route := { demoRoute with certificate := some 7 }

/-- A fresh manager over `constSupplier`. -/
def demoManager0 : Manager := newManager (some constSupplier)

/-- The manager obtained by installing `demoRoute` into `demoManager0`. -/
def demoManager1 : Manager :=
  { provider := some constSupplier, routes := [demoRouteCert] }

/-- A route with the syntactically invalid domain of the tests. -/
def invalidRoute : Route :=
  { domains := ["example..com"], upstream := "", provider := "",
    headers := [], certificate := none }

/-- A manager with no certificate provider holding `demoRoute`. -/
def noProvManager1 : Manager := { provider := none, routes := [demoRoute] }

/-- The two-route config file of the parser tests (spec §8 scenario 4),
with lowercase keywords. -/
def demoConfig : String :=
  "\n# Comment\nroute example.com www.example.com\n\t# Indented comment\n\tupstream localhost:8080\n\theader add x-test foo\n\theader delete x-test-2\n\tprovider p1\n\nroute example.net\n\tupstream localhost:8081\n\theader default x-test-3 bar\n\theader replace x-test-4 baz\n"

/-- The same config file with mixed-case keywords and header operation
names (the case-insensitivity test input). -/
def demoCaseConfig : String :=
  "\n# Comment\nRoUtE example.com www.example.com\n\t# Indented comment\n\tUpStReAm localhost:8080\n\tHeAdEr AdD x-test foo\n\thEaDeR dElEtE x-test-2\n\tPrOvIdEr p1\n\nrOuTe example.net\n\tuPsTrEaM localhost:8081\n\tHeAdEr DeFaUlT x-test-3 bar\n\thEaDeR rEpLaCe x-test-4 baz\n"

/-- The routes both config files must parse to: input order, verbatim
domain names, header names, header values, upstreams and provider names;
the second route has no `provider` directive and keeps provider `""`. -/
def demoParsedRoutes : List Route :=
  [{ domains := ["example.com", "www.example.com"],
     upstream := "localhost:8080", provider := "p1",
     headers := [⟨HeaderOp.add, "x-test", "foo"⟩,
                 ⟨HeaderOp.delete, "x-test-2", ""⟩],
     certificate := none },
   { domains := ["example.net"], upstream := "localhost:8081",
     provider := "",
     headers := [⟨HeaderOp.dflt, "x-test-3", "bar"⟩,
                 ⟨HeaderOp.replace, "x-test-4", "baz"⟩],
     certificate := none }]

/-- A route block with two `upstream` directives (must be rejected). -/
def multiUpstreamConfig : String :=
  "\nroute example.com\n\tupstream server1\n\tupstream server2\n"

/-- A route block with two `provider` directives (must be rejected). -/
def multiProviderConfig : String :=
  "\nroute example.com\n\tprovider lego\n\tprovider other\n"

/-- A `header` directive with no usable operation (must be rejected). -/
def headerNoArgsConfig : String :=
  "\nroute example.com\n\theader nothing\n"

/-- `header add` missing its value (must be rejected). -/
def headerAddNoValueConfig : String :=
  "\nroute example.com\n\theader add x-test\n"

/-- `header replace` missing its value (must be rejected). -/
def headerReplaceNoValueConfig : String :=
  "\nroute example.com\n\theader replace x-test\n"

/-- `header default` missing its value (must be rejected). -/
def headerDefaultNoValueConfig : String :=
  "\nroute example.com\n\theader default x-test\n"

/-- The length of a day in nanoseconds. -/
def timeDay : Nat := 24 * timeHour

/-! ## Helper lemmas -/

/-- A successful `fetchCerts` pass preserves every route's domains and
provider, and attaches to every returned route exactly the certificate the
supplier returned for that route's `(provider, first domain, remaining
domains)` tuple. -/
theorem fetchCerts_ok (f : Supplier) (rs : List Route) :
    ∀ rs', fetchCerts f rs = .ok rs' →
      rs'.map Route.domains = rs.map Route.domains ∧
      rs'.map Route.provider = rs.map Route.provider ∧
      ∀ r' ∈ rs', ∃ d ds c, r'.domains = d :: ds ∧
        f r'.provider d ds = .ok c ∧ r'.certificate = some c := by
  induction rs with
  | nil =>
    intro rs' h
    simp only [fetchCerts] at h
    injection h with h
    subst h
    simp
  | cons r rest ih =>
    intro rs' h
    simp only [fetchCerts] at h
    split at h
    · exact absurd h (by simp)
    next d ds hd =>
      split at h
      · exact absurd h (by simp)
      next c hf =>
        split at h
        · exact absurd h (by simp)
        next rest' hrest =>
          injection h with h
          subst h
          obtain ⟨ih1, ih2, ih3⟩ := ih rest' hrest
          refine ⟨by simp [ih1], by simp [ih2], ?_⟩
          intro r' hr'
          rcases List.mem_cons.mp hr' with rfl | hmem
          · exact ⟨d, ds, c, hd, hf, rfl⟩
          · exact ih3 r' hmem

/-- A list in which `firstDup` finds no duplicate has no duplicates. -/
theorem nodup_of_firstDup_eq_none :
    ∀ {l : List String}, firstDup l = none → l.Nodup := by
  intro l
  induction l with
  | nil => intro _; simp
  | cons d rest ih =>
    intro h
    simp only [firstDup] at h
    split at h
    · exact absurd h (by simp)
    next hc =>
      refine List.nodup_cons.mpr ⟨?_, ih h⟩
      intro hm
      exact hc (by simpa using hm)

/-- A successful `installRoutes` returns routes whose domains are exactly
the lowercased input domains, and whose combined domain list is
duplicate-free. -/
theorem installRoutes_ok_domains (p : Option Supplier) (R rs : List Route)
    (h : installRoutes p R = .ok rs) :
    rs.map Route.domains = (R.map lowerRoute).map Route.domains ∧
    (rs.flatMap Route.domains).Nodup := by
  simp only [installRoutes] at h
  split at h
  · exact absurd h (by simp)
  next hinv =>
    split at h
    · exact absurd h (by simp)
    next hdup =>
      have hflat : ∀ rs₀ : List Route,
          rs₀.map Route.domains = (R.map lowerRoute).map Route.domains →
          (rs₀.flatMap Route.domains).Nodup := by
        intro rs₀ hmap
        have : rs₀.flatMap Route.domains =
            (R.map lowerRoute).flatMap Route.domains := by
          rw [List.flatMap_def, List.flatMap_def, hmap]
        rw [this]
        exact nodup_of_firstDup_eq_none hdup
      split at h
      · injection h with h
        subst h
        exact ⟨rfl, hflat _ rfl⟩
      next f =>
        split at h
        · exact absurd h (by simp)
        next rs' hfetch =>
          injection h with h
          subst h
          obtain ⟨h1, _, _⟩ := fetchCerts_ok f (R.map lowerRoute) rs' hfetch
          exact ⟨h1, hflat _ h1⟩

/-- With no provider configured, a successful `installRoutes` is exactly
lowercasing: no certificate is acquired and no route is otherwise
changed. -/
theorem installRoutes_none_ok (R rs : List Route)
    (h : installRoutes none R = .ok rs) : rs = R.map lowerRoute := by
  simp only [installRoutes] at h
  split at h
  · exact absurd h (by simp)
  · split at h
    · exact absurd h (by simp)
    · injection h with h
      exact h.symm

/-- A successful `installRoutes` with a configured supplier is a
successful `fetchCerts` pass over the lowercased routes. -/
theorem installRoutes_some_ok (f : Supplier) (R rs : List Route)
    (h : installRoutes (some f) R = .ok rs) :
    fetchCerts f (R.map lowerRoute) = .ok rs := by
  simp only [installRoutes] at h
  split at h
  · exact absurd h (by simp)
  · split at h
    · exact absurd h (by simp)
    · split at h
      · exact absurd h (by simp)
      next rs' hfetch =>
        injection h with h
        subst h
        exact hfetch

/-- A successful `setRoutes` call keeps the manager's supplier and
installs exactly the routes `installRoutes` produced. -/
theorem setRoutes_ok (m m' : Manager) (R : List Route)
    (h : setRoutes m R = .ok m') :
    m'.provider = m.provider ∧ installRoutes m.provider R = .ok m'.routes := by
  simp only [setRoutes] at h
  split at h
  · exact absurd h (by simp)
  next rs hrs =>
    injection h with h
    subst h
    exact ⟨rfl, hrs⟩

/-- In a route list whose combined domain list is duplicate-free, the
lookup by a domain `x` of one of the routes finds exactly that route. -/
theorem find?_route_of_mem (x : String) :
    ∀ rs : List Route, (rs.flatMap Route.domains).Nodup →
      ∀ r ∈ rs, x ∈ r.domains →
      rs.find? (fun r' => r'.domains.contains x) = some r := by
  intro rs
  induction rs with
  | nil => intro _ r hr; exact absurd hr (by simp)
  | cons r0 rest ih =>
    intro hnd r hr hx
    have hnd' : (r0.domains ++ rest.flatMap Route.domains).Nodup := by
      simpa using hnd
    rcases List.mem_cons.mp hr with rfl | hmem
    · exact List.find?_cons_of_pos _ (by simpa using hx)
    · have hdisj : r0.domains.Disjoint (rest.flatMap Route.domains) :=
        (List.nodup_append.mp hnd').2.2
      have hx_rest : x ∈ rest.flatMap Route.domains :=
        List.mem_flatMap.mpr ⟨r, hmem, hx⟩
      have hrest_nd : (rest.flatMap Route.domains).Nodup :=
        (List.nodup_append.mp hnd').2.1
      rw [List.find?_cons_of_neg]
      · exact ih hrest_nd r hmem hx
      · intro hcon
        exact hdisj (by simpa using hcon) hx_rest

/-! ## The claims -/

/-- **C1**: `SetRoutes` is all-or-nothing: whenever it reports an error —
in particular when some (lowercased) domain is syntactically invalid, when
the combined domain list has a duplicate, or when the supplier fails
during certificate acquisition — the previously installed route table is
preserved unchanged. -/
theorem setRoutes_all_or_nothing (m : Manager) (R : List Route) :
    (∀ e, (setRoutesState m R).2 = some e → (setRoutesState m R).1 = m) ∧
    (∀ d, d ∈ (R.map lowerRoute).flatMap Route.domains →
      validDomain d = false → (setRoutesState m R).2.isSome = true) ∧
    (¬ ((R.map lowerRoute).flatMap Route.domains).Nodup →
      (setRoutesState m R).2.isSome = true) ∧
    (∀ f e, m.provider = some f →
      fetchCerts f (R.map lowerRoute) = .error e →
      (setRoutesState m R).2.isSome = true) := by
  have herr : ∀ e, setRoutes m R = .error e →
      (setRoutesState m R).2.isSome = true := by
    intro e h
    simp [setRoutesState, h]
  refine ⟨?_, ?_, ?_, ?_⟩
  · intro e h
    unfold setRoutesState at h ⊢
    cases hs : setRoutes m R with
    | error e' => simp
    | ok m' => rw [hs] at h; simp at h
  · intro d hd hvd
    have hsome : (firstInvalidDomain (R.map lowerRoute)).isSome := by
      rw [firstInvalidDomain, List.find?_isSome]
      exact ⟨d, hd, by simp [hvd]⟩
    cases hfi : firstInvalidDomain (R.map lowerRoute) with
    | none => rw [hfi] at hsome; simp at hsome
    | some d' =>
      exact herr (Err.invalidDomain d') (by simp [setRoutes, installRoutes, hfi])
  · intro hnd
    cases hfi : firstInvalidDomain (R.map lowerRoute) with
    | some d' =>
      exact herr (Err.invalidDomain d') (by simp [setRoutes, installRoutes, hfi])
    | none =>
      cases hfd : firstDup ((R.map lowerRoute).flatMap Route.domains) with
      | none => exact absurd (nodup_of_firstDup_eq_none hfd) hnd
      | some d' =>
        exact herr (Err.duplicateDomain d')
          (by simp [setRoutes, installRoutes, hfi, hfd])
  · intro f e hp hf
    cases hfi : firstInvalidDomain (R.map lowerRoute) with
    | some d' =>
      exact herr (Err.invalidDomain d') (by simp [setRoutes, installRoutes, hfi])
    | none =>
      cases hfd : firstDup ((R.map lowerRoute).flatMap Route.domains) with
      | some d' =>
        exact herr (Err.duplicateDomain d')
          (by simp [setRoutes, installRoutes, hfi, hfd])
      | none =>
        exact herr (Err.supplierError e)
          (by simp [setRoutes, installRoutes, hfi, hfd, hp, hf])

/-- Witness for C1: installing the invalid domain `example..com` into a
fresh manager reports an error and leaves the manager unchanged. -/
theorem setRoutes_all_or_nothing_witness :
    (setRoutesState (newManager none) [invalidRoute]).1 = newManager none ∧
    (setRoutesState (newManager none) [invalidRoute]).2.isSome = true :=
  ⟨(setRoutes_all_or_nothing (newManager none) [invalidRoute]).1
      (Err.invalidDomain "example..com") (by rfl),
   (setRoutes_all_or_nothing (newManager none) [invalidRoute]).2.1
      "example..com" (by decide) (by rfl)⟩

/-- **C9**: installing the same route list twice in a row reproduces the
manager state exactly — same route table, same attached certificates (the
supplier is a pure function, hence memoising). -/
theorem setRoutes_idempotent (m m1 : Manager) (R : List Route)
    (h : setRoutes m R = .ok m1) : setRoutes m1 R = .ok m1 := by
  obtain ⟨hprov, hinst⟩ := setRoutes_ok m m1 R h
  simp [setRoutes, hprov, hinst]
  rw [← hprov]

/-- Witness for C9: re-installing `demoRoute` into the manager it produced
returns that same manager. -/
theorem setRoutes_idempotent_witness :
    setRoutes demoManager1 [demoRoute] = .ok demoManager1 :=
  setRoutes_idempotent demoManager0 demoManager1 [demoRoute] (by rfl)

/-- **C10**: with no certificate provider configured, installed routes
carry no certificate and `CheckCertificates` succeeds without doing
anything. -/
theorem checkCertificates_no_provider (m m' : Manager) (R : List Route)
    (hp : m.provider = none) (hc : ∀ r ∈ R, r.certificate = none)
    (h : setRoutes m R = .ok m') :
    checkCertificates m' = (m', none) ∧
    ∀ r' ∈ m'.routes, r'.certificate = none := by
  obtain ⟨hprov, hinst⟩ := setRoutes_ok m m' R h
  rw [hp] at hinst
  have hroutes : m'.routes = R.map lowerRoute := installRoutes_none_ok R _ hinst
  constructor
  · simp [checkCertificates, hprov, hp]
  · intro r' hr'
    rw [hroutes] at hr'
    obtain ⟨r, hrR, rfl⟩ := List.mem_map.mp hr'
    simpa [lowerRoute] using hc r hrR

/-- Witness for C10: a provider-less manager holding the demo route passes
`CheckCertificates` untouched. -/
theorem checkCertificates_no_provider_witness :
    checkCertificates noProvManager1 = (noProvManager1, none) :=
  (checkCertificates_no_provider (newManager none) noProvManager1 [demoRoute]
    rfl (by decide) (by rfl)).1

/-- **C2**: after a successful `SetRoutes` with a configured certificate
provider, there is one installed route per input route and every installed
route's certificate is exactly the value the supplier's `GetCertificate`
returned when invoked with `preferredSupplier` the route's provider,
`subject` the route's first domain and `altNames` the remaining domains. -/
theorem setRoutes_attaches_certificates (m m' : Manager) (R : List Route)
    (f : Supplier) (hp : m.provider = some f) (h : setRoutes m R = .ok m') :
    m'.routes.length = R.length ∧
    ∀ r' ∈ m'.routes, ∃ d ds c, r'.domains = d :: ds ∧
      f r'.provider d ds = .ok c ∧ r'.certificate = some c := by
  obtain ⟨hprov, hinst⟩ := setRoutes_ok m m' R h
  rw [hp] at hinst
  have hfetch := installRoutes_some_ok f R _ hinst
  obtain ⟨h1, _h2, h3⟩ := fetchCerts_ok f (R.map lowerRoute) _ hfetch
  refine ⟨?_, h3⟩
  have := congrArg List.length h1
  simpa using this

/-- Witness for C2: installing the demo route through `constSupplier`
produces exactly one route (whose certificate facts the theorem also
yields). -/
theorem setRoutes_attaches_certificates_witness :
    demoManager1.routes.length = [demoRoute].length :=
  (setRoutes_attaches_certificates demoManager0 demoManager1 [demoRoute]
    constSupplier rfl (by rfl)).1

/-- **C3**: on any installed route table, `RouteForDomain` returns the
route whose domain list contains the (lowercased) query for every such
query, `none` for every query contained in no route, and, after
`SetRoutes([])`, `none` for every input. -/
theorem routeForDomain_spec (m m' : Manager) (R : List Route)
    (h : setRoutes m R = .ok m') :
    (∀ r ∈ m'.routes, ∀ d : String, strLower d ∈ r.domains →
      routeForDomain m' d = some r) ∧
    (∀ d : String, (∀ r ∈ m'.routes, strLower d ∉ r.domains) →
      routeForDomain m' d = none) ∧
    (R = [] → ∀ d, routeForDomain m' d = none) := by
  obtain ⟨hprov, hinst⟩ := setRoutes_ok m m' R h
  obtain ⟨hmap, hnd⟩ := installRoutes_ok_domains _ _ _ hinst
  refine ⟨?_, ?_, ?_⟩
  · intro r hr d hd
    exact find?_route_of_mem (strLower d) m'.routes hnd r hr hd
  · intro d hnone
    unfold routeForDomain
    exact List.find?_eq_none.mpr (fun r hr => by simpa using hnone r hr)
  · rintro rfl d
    have h0 : m'.routes.map Route.domains = [] := by simpa using hmap
    have hnil : m'.routes = [] := List.map_eq_nil_iff.mp h0
    rw [routeForDomain, hnil]
    rfl

/-- Witness for C3: on the installed demo table, a differently-cased query
for one of the route's domains finds the route. -/
theorem routeForDomain_spec_witness :
    routeForDomain demoManager1 "EXAMPLE.COM" = some demoRouteCert :=
  (routeForDomain_spec demoManager0 demoManager1 [demoRoute] (by rfl)).1
    demoRouteCert (by decide) "EXAMPLE.COM" (by decide)

/-- **C4**: `CertificateForClient` returns `(null, nil)` exactly when no
route matches the SNI server name, a `NoCertificate` error when the
matching route has no attached certificate, and otherwise the route's
attached certificate with no error. -/
theorem certificateForClient_spec (m : Manager) (hi : ClientHelloInfo) :
    (certificateForClient m hi = .ok none ↔
      routeForDomain m hi.serverName = none) ∧
    (∀ r, routeForDomain m hi.serverName = some r → r.certificate = none →
      certificateForClient m hi = .error .noCertificate) ∧
    (∀ r c, routeForDomain m hi.serverName = some r →
      r.certificate = some c → certificateForClient m hi = .ok (some c)) := by
  refine ⟨⟨?_, ?_⟩, ?_, ?_⟩
  · intro h
    cases hrd : routeForDomain m hi.serverName with
    | none => rfl
    | some r =>
      cases hc : r.certificate with
      | none => simp [certificateForClient, hrd, hc] at h
      | some c => simp [certificateForClient, hrd, hc] at h
  · intro h
    simp [certificateForClient, h]
  · intro r h1 h2
    simp [certificateForClient, h1, h2]
  · intro r c h1 h2
    simp [certificateForClient, h1, h2]

/-- Witness for C4: on the provider-less demo table, the route for
`example.com` exists but has no certificate, so the TLS hook reports
`NoCertificate`. -/
theorem certificateForClient_spec_witness :
    certificateForClient noProvManager1 ⟨"example.com"⟩ =
      .error .noCertificate :=
  (certificateForClient_spec noProvManager1 ⟨"example.com"⟩).2.1 demoRoute
    (by rfl) rfl

/-- **C5**: on an installed table with a configured supplier, a successful
`CheckCertificates` pass keeps one route per installed route, attaches to
each the certificate the supplier returned for its `(provider, first
domain, remaining domains)` tuple, and every route is found under every
one of its domains afterwards; if the supplier errors, the pass fails with
that error and the table is unchanged. -/
theorem checkCertificates_spec (m0 m : Manager) (R : List Route)
    (f : Supplier) (hset : setRoutes m0 R = .ok m)
    (hp : m.provider = some f) :
    (∀ m', checkCertificates m = (m', none) →
      m'.routes.length = m.routes.length ∧
      ∀ r' ∈ m'.routes,
        (∃ d ds c, r'.domains = d :: ds ∧ f r'.provider d ds = .ok c ∧
          r'.certificate = some c) ∧
        ∀ s : String, strLower s ∈ r'.domains →
          routeForDomain m' s = some r') ∧
    (∀ e, fetchCerts f m.routes = .error e →
      checkCertificates m = (m, some (.supplierError e))) := by
  obtain ⟨hprov, hinst⟩ := setRoutes_ok m0 m R hset
  obtain ⟨hmap0, hnd0⟩ := installRoutes_ok_domains _ _ _ hinst
  refine ⟨?_, ?_⟩
  · intro m' h
    simp only [checkCertificates, hp] at h
    split at h
    · simp at h
    next rs hfetch =>
      have hm' : m' = { provider := some f, routes := rs } := by
        have := congrArg Prod.fst h
        simpa using this.symm
      subst hm'
      obtain ⟨hmap, _hpmap, hcert⟩ := fetchCerts_ok f m.routes rs hfetch
      have hnd : (rs.flatMap Route.domains).Nodup := by
        have : rs.flatMap Route.domains = m.routes.flatMap Route.domains := by
          rw [List.flatMap_def, List.flatMap_def, hmap]
        rw [this]
        exact hnd0
      refine ⟨by simpa using congrArg List.length hmap, ?_⟩
      intro r' hr'
      refine ⟨hcert r' hr', ?_⟩
      intro s hs
      exact find?_route_of_mem (strLower s) rs hnd r' hr' hs
  · intro e he
    simp [checkCertificates, hp, he]

/-- Witness for C5: after a renewal pass over the demo table, the route is
still found under its second domain. -/
theorem checkCertificates_spec_witness :
    routeForDomain demoManager1 "test.example.com" = some demoRouteCert :=
  (((checkCertificates_spec demoManager0 demoManager1 [demoRoute]
      constSupplier (by rfl) rfl).1 demoManager1 (by rfl)).2
    demoRouteCert (by decide)).2 "test.example.com" (by decide)

/-- **C6**: the parser is order-preserving — routes already committed stay
an unchanged prefix of any successful result — and on the specification's
two-route scenario input, with lowercase or mixed-case keywords alike, it
returns exactly the expected routes in input order, with domains and
headers in input order, verbatim domain names, header names, header
values, upstreams and provider names, and provider `""` for the route with
no `provider` directive. -/
theorem parse_returns_routes :
    (∀ (lines : List (List Char)) (cur : Option Route) (acc rs : List Route),
      parseLines lines cur acc = .ok rs → rs.take acc.length = acc) ∧
    Parse demoConfig = .ok demoParsedRoutes ∧
    Parse demoCaseConfig = .ok demoParsedRoutes := by
  refine ⟨?_, by rfl, by rfl⟩
  intro lines
  induction lines with
  | nil =>
    intro cur acc rs h
    simp only [parseLines] at h
    injection h with h
    subst h
    exact List.take_left acc _
  | cons line rest ih =>
    intro cur acc rs h
    simp only [parseLines] at h
    split at h
    · exact ih cur acc rs h
    · split at h
      · exact ih cur acc rs h
      · split at h
        · split at h
          · exact absurd h (by simp)
          · have h2 := ih _ _ rs h
            have hlen : acc.length ≤ (acc ++ cur.toList).length := by
              simp
            calc rs.take acc.length
                = (rs.take (acc ++ cur.toList).length).take acc.length := by
                  rw [List.take_take, Nat.min_eq_left hlen]
              _ = (acc ++ cur.toList).take acc.length := by rw [h2]
              _ = acc := by
                  rw [List.take_append_of_le_length (Nat.le_refl _)]
                  exact List.take_length acc
        · split at h
          · exact absurd h (by simp)
          · split at h
            · exact absurd h (by simp)
            · exact ih _ _ rs h

/-- Witness for C6: a finished parse returns the committed routes
unchanged. -/
theorem parse_returns_routes_witness :
    ([demoRoute].take 1 : List Route) = [demoRoute] :=
  parse_returns_routes.1 [] none [demoRoute] [demoRoute] (by rfl)

/-- **C7**: an empty input parses to zero routes with no error; an unknown
keyword, a top-level `upstream`/`provider`/`header`, a repeated `upstream`
or `provider` inside a route, a wrongly-sized `header` directive and an
unknown header operation are all rejected. -/
theorem parse_error_cases :
    Parse "" = .ok [] ∧
    parseFails "error please" = true ∧
    parseFails "upstream localhost:8080" = true ∧
    parseFails "provider lego" = true ∧
    parseFails "header add x-test foo" = true ∧
    parseFails multiUpstreamConfig = true ∧
    parseFails multiProviderConfig = true ∧
    parseFails headerNoArgsConfig = true ∧
    parseFails headerAddNoValueConfig = true ∧
    parseFails headerReplaceNoValueConfig = true ∧
    parseFails headerDefaultNoValueConfig = true :=
  ⟨rfl, rfl, rfl, rfl, rfl, rfl, rfl, rfl, rfl, rfl, rfl⟩

/-- **C8**: the ACME ("lego") certificate manager is configured with a
minimum certificate validity of 30 days and a minimum OCSP staple validity
of 24 hours; the self-signed one with a minimum certificate validity of
7 days and an OCSP staple threshold of one second — the smallest practical
margin, under which a staple is effectively already expired whenever its
refresh is due. -/
theorem certProviders_validity_thresholds :
    certProviderConfigs.lookup "lego" =
      some ⟨30 * timeDay, 24 * timeHour⟩ ∧
    certProviderConfigs.lookup "selfsigned" =
      some ⟨7 * timeDay, timeSecond⟩ ∧
    selfSignedOcspValidity = timeSecond := by
  refine ⟨?_, ?_, rfl⟩ <;> decide

end Centauri
